import Mathlib

/-!
Verification of the `aktiva` HTTP client (`client.go`): the request-signing
pipeline (HMAC-SHA256 + base64), endpoint resolution via path templates,
request assembly, and response normalization.

Bytes are modelled as `Nat` values below 256, byte strings as `List Nat`,
and 32-bit machine words as `Nat` reduced modulo `2 ^ 32` at every operation.
-/

namespace MeritAktiva

/-! ## SHA-256 (model of Go `crypto/sha256`, FIPS 180-4) -/

/-- Modulus for 32-bit machine words. -/
def w32 : Nat := 4294967296

/-- Rotate a 32-bit word right by `n` bits. -/
def rotr32 (n x : Nat) : Nat :=
  Nat.lor (x >>> n) ((x <<< (32 - n)) % w32)

/-- Bitwise complement of a 32-bit word. -/
def not32 (x : Nat) : Nat := Nat.xor x (w32 - 1)

/-- SHA-256 choice function. -/
def ch (e f g : Nat) : Nat := Nat.xor (Nat.land e f) (Nat.land (not32 e) g)

/-- SHA-256 majority function. -/
def maj (a b c : Nat) : Nat :=
  Nat.xor (Nat.xor (Nat.land a b) (Nat.land a c)) (Nat.land b c)

/-- SHA-256 big sigma 0. -/
def bigSigma0 (x : Nat) : Nat := Nat.xor (Nat.xor (rotr32 2 x) (rotr32 13 x)) (rotr32 22 x)

/-- SHA-256 big sigma 1. -/
def bigSigma1 (x : Nat) : Nat := Nat.xor (Nat.xor (rotr32 6 x) (rotr32 11 x)) (rotr32 25 x)

/-- SHA-256 small sigma 0. -/
def smallSigma0 (x : Nat) : Nat := Nat.xor (Nat.xor (rotr32 7 x) (rotr32 18 x)) (x >>> 3)

/-- SHA-256 small sigma 1. -/
def smallSigma1 (x : Nat) : Nat := Nat.xor (Nat.xor (rotr32 17 x) (rotr32 19 x)) (x >>> 10)

/-- The 64 SHA-256 round constants. -/
def sha256K : List Nat :=
  [1116352408, 1899447441, 3049323471, 3921009573, 961987163, 1508970993,
   2453635748, 2870763221, 3624381080, 310598401, 607225278, 1426881987,
   1925078388, 2162078206, 2614888103, 3248222580, 3835390401, 4022224774,
   264347078, 604807628, 770255983, 1249150122, 1555081692, 1996064986,
   2554220882, 2821834349, 2952996808, 3210313671, 3336571891, 3584528711,
   113926993, 338241895, 666307205, 773529912, 1294757372, 1396182291,
   1695183700, 1986661051, 2177026350, 2456956037, 2730485921, 2820302411,
   3259730800, 3345764771, 3516065817, 3600352804, 4094571909, 275423344,
   430227734, 506948616, 659060556, 883997877, 958139571, 1322822218,
   1537002063, 1747873779, 1955562222, 2024104815, 2227730452, 2361852424,
   2428436474, 2756734187, 3204031479, 3329325298]

/-- The SHA-256 initial hash value. -/
def sha256InitH : List Nat :=
  [1779033703, 3144134277, 1013904242, 2773480762,
   1359893119, 2600822924, 528734635, 1541459225]

/-- Big-endian 8-byte encoding of a length (in bits). -/
def be64 (n : Nat) : List Nat :=
  [n / 72057594037927936 % 256, n / 281474976710656 % 256, n / 1099511627776 % 256,
   n / 4294967296 % 256, n / 16777216 % 256, n / 65536 % 256, n / 256 % 256, n % 256]

/-- SHA-256 message padding: append `0x80`, zero bytes to 56 mod 64, then the
bit length as 8 big-endian bytes. -/
def sha256Pad (msg : List Nat) : List Nat :=
  msg ++ [0x80] ++ List.replicate ((64 + 55 - msg.length % 64) % 64) 0 ++ be64 (8 * msg.length)

/-- Split a byte string into 64-byte blocks. -/
def chunks64 (msg : List Nat) : List (List Nat) :=
  if h : msg = [] then []
  else msg.take 64 :: chunks64 (msg.drop 64)
termination_by msg.length
decreasing_by
  simp only [List.length_drop]
  exact Nat.sub_lt (List.length_pos.mpr h) (by omega)

/-- Parse a block into big-endian 32-bit words. -/
def toWords : List Nat → List Nat
  | b0 :: b1 :: b2 :: b3 :: rest =>
      (b0 * 16777216 + b1 * 65536 + b2 * 256 + b3) :: toWords rest
  | _ => []

/-- Extend a 16-word schedule by `n` further schedule words. -/
def extendSchedule (ws : List Nat) : Nat → List Nat
  | 0 => ws
  | n + 1 =>
      let t := ws.length
      let next := (smallSigma1 (ws.getD (t - 2) 0) + ws.getD (t - 7) 0 +
        smallSigma0 (ws.getD (t - 15) 0) + ws.getD (t - 16) 0) % w32
      extendSchedule (ws ++ [next]) n

/-- One SHA-256 compression round on the eight-word working state. -/
def sha256Round (st : List Nat) (kw : Nat × Nat) : List Nat :=
  match st with
  | [a, b, c, d, e, f, g, h] =>
      let t1 := (h + bigSigma1 e + ch e f g + kw.1 + kw.2) % w32
      let t2 := (bigSigma0 a + maj a b c) % w32
      [(t1 + t2) % w32, a, b, c, (d + t1) % w32, e, f, g]
  | other => other

/-- Process one 64-byte block. -/
def compressBlock (hs : List Nat) (block : List Nat) : List Nat :=
  let sched := extendSchedule (toWords block) 48
  let st := (sha256K.zip sched).foldl sha256Round hs
  (hs.zip st).map (fun p => (p.1 + p.2) % w32)

/-- Big-endian 4-byte encoding of a 32-bit word. -/
def wordBE (w : Nat) : List Nat := [w / 16777216 % 256, w / 65536 % 256, w / 256 % 256, w % 256]

/-- SHA-256 of a byte string. -/
def sha256 (msg : List Nat) : List Nat :=
  (((chunks64 (sha256Pad msg)).foldl compressBlock sha256InitH).map wordBE).flatten

/-! ## HMAC (model of Go `crypto/hmac` with SHA-256, RFC 2104) -/

/-- HMAC-SHA256: key longer than the 64-byte block is hashed, then padded with
zeros to the block size; inner pad `0x36`, outer pad `0x5c`. -/
def hmacSHA256 (key msg : List Nat) : List Nat :=
  let k0 := if key.length > 64 then sha256 key else key
  let kp := k0 ++ List.replicate (64 - k0.length) 0
  let ipad := kp.map (fun b => Nat.xor b 0x36)
  let opad := kp.map (fun b => Nat.xor b 0x5c)
  sha256 (opad ++ sha256 (ipad ++ msg))

/-! ## Base64 (model of Go `encoding/base64` `StdEncoding`) -/

/-- The standard base64 alphabet as characters. -/
def b64Alphabet : List Char :=
  "ABCDEFGHIJKLMNOPQRSTUVWXYZabcdefghijklmnopqrstuvwxyz0123456789+/".data

/-- Character for a 6-bit group. -/
def b64Char (n : Nat) : Char := b64Alphabet.getD n 'A'

/-- Standard (padded) base64 encoding of a byte string. -/
def base64StdEncode : List Nat → List Char
  | [] => []
  | [b0] => [b64Char (b0 / 4), b64Char (b0 % 4 * 16), '=', '=']
  | [b0, b1] => [b64Char (b0 / 4), b64Char (b0 % 4 * 16 + b1 / 16), b64Char (b1 % 16 * 4), '=']
  | b0 :: b1 :: b2 :: rest =>
      b64Char (b0 / 4) :: b64Char (b0 % 4 * 16 + b1 / 16) ::
      b64Char (b1 % 16 * 4 + b2 / 64) :: b64Char (b2 % 64) :: base64StdEncode rest

/-! ## Strings as bytes -/

/-- UTF-8 encoding of one character (Go strings are UTF-8 byte strings). -/
def utf8Bytes (c : Char) : List Nat :=
  let n := c.toNat
  if n < 128 then [n]
  else if n < 2048 then [192 + n / 64, 128 + n % 64]
  else if n < 65536 then [224 + n / 4096, 128 + n / 64 % 64, 128 + n % 64]
  else [240 + n / 262144, 128 + n / 4096 % 64, 128 + n / 64 % 64, 128 + n % 64]

/-- The bytes of a Go string (UTF-8). -/
def strBytes (s : String) : List Nat := s.data.flatMap utf8Bytes

/-! ## Package constants (`client.go` lines 26-31) -/

/-- Package constant `libraryVersion`. -/
def libraryVersion : String := "0.0.1"

/-- Package constant `userAgent`. -/
def userAgent : String := "go-merit-aktiva/" ++ libraryVersion

/-- Package constant `mediaType`. -/
def mediaType : String := "application/json"

/-- Package constant `charset`. -/
def charset : String := "utf-8"

/-! ## Client (`client.go` lines 62-150): the configuration fields touched by
the getters and setters; the `http.Client`, callback and base URL fields play
no role in the claims below and are omitted. -/

/-- The client's configuration state. -/
structure Client where
  debug : Bool
  apiID : String
  apiKey : String
  userAgent : String
  mediaType : String
  charset : String
  disallowUnknownFields : Bool
deriving DecidableEq

/-- Getter `APIID` (line 104): returns the field. -/
def APIID (c : Client) : String := c.apiID

/-- Setter `SetAPIID` (line 108). -/
def SetAPIID (c : Client) (apiID : String) : Client := { c with apiID := apiID }

/-- Getter `APIKey` (line 112): returns the field. -/
def APIKey (c : Client) : String := c.apiKey

/-- Setter `SetAPIKey` (line 116). -/
def SetAPIKey (c : Client) (apiKey : String) : Client := { c with apiKey := apiKey }

/-- Setter `SetMediaType` (line 128): stores into the field. -/
def SetMediaType (c : Client) (s : String) : Client := { c with mediaType := s }

/-- Getter `MediaType` (line 132): returns the package constant `mediaType`,
not the field. -/
def MediaType (_ : Client) : String := mediaType

/-- Setter `SetCharset` (line 136): stores into the field. -/
def SetCharset (c : Client) (s : String) : Client := { c with charset := s }

/-- Getter `Charset` (line 140): returns the package constant `charset`,
not the field. -/
def Charset (_ : Client) : String := charset

/-- Setter `SetUserAgent` (line 144): stores into the field. -/
def SetUserAgent (c : Client) (s : String) : Client := { c with userAgent := s }

/-- Getter `UserAgent` (line 148): returns the package constant `userAgent`,
not the field. -/
def UserAgent (_ : Client) : String := userAgent

/-- Setter `SetDisallowUnknownFields` (line 166). -/
def SetDisallowUnknownFields (c : Client) (b : Bool) : Client :=
  { c with disallowUnknownFields := b }

/-! ## GenerateSignature (`client.go` lines 156-164)

The `DateTime` type and its `String` method live outside `client.go`; per the
spec a timestamp "must serialize identically whether used for signing or for
the transmitted parameter", so a timestamp is represented here by its
serialized string. `GenerateSignature` receives that string where the source
receives `timestamp` and calls `timestamp.String()`. -/

/-- Embedding of `GenerateSignature`: HMAC keyed by `c.APIKey()` over a buffer
built by successive appends of `c.APIID()`, `timestamp.String()` and
`body.Bytes()`, base64-encoded with `base64.StdEncoding.EncodeToString`. -/
def GenerateSignature (c : Client) (timestampStr : String) (body : List Nat) : String :=
  let data : List Nat := []
  let data := data ++ strBytes (APIID c)
  let data := data ++ strBytes timestampStr
  let data := data ++ body
  String.mk (base64StdEncode (hmacSHA256 (strBytes (APIKey c)) data))

/-- Modelled from the spec: the Signature Engine contract
`Sign(secret, identifier, timestamp, bodyBytes)` — HMAC using the secret as
key, SHA-256 as digest, over the concatenation
`identifier || timestamp-string || bodyBytes`, output base64-encoded with the
standard alphabet, padded. -/
def Sign (secret identifier timestampBytes bodyBytes : List Nat) : String :=
  String.mk (base64StdEncode (hmacSHA256 secret (identifier ++ timestampBytes ++ bodyBytes)))

/-! ## Path templates (model of Go `text/template` as used by `GetEndpointURL`,
`client.go` lines 170-188)

The path templates of this client contain only literal text and field actions
`\x7b\x7bfield\x7d\x7d` over a `map[string]string`. The model is a character
state machine: literal text is copied; `\x7b\x7b` opens an action which runs to
`\x7d\x7d`; the action must be `.name` (optionally surrounded by spaces).
Looking up a key absent from the map follows `text/template`'s default
`missingkey` option: execution continues and the index operation prints the
literal string `<no value>`. A malformed action (no leading dot, or an
unclosed action) is a parse/execute error, which `GetEndpointURL` turns into
`log.Fatal` — modelled as `none`. -/

/-- The fallback text `text/template` prints for a missing map key under the
default `missingkey` option. -/
def noValue : List Char := "<no value>".data

/-- State of the template scanner. -/
inductive TmplMode
  | text
  | brace1
  | action (acc : List Char)
  | close1 (acc : List Char)
deriving DecidableEq

/-- Strip leading and trailing spaces of an action's text. -/
def trimSpaces (cs : List Char) : List Char :=
  ((cs.dropWhile (fun c => c = ' ')).reverse.dropWhile (fun c => c = ' ')).reverse

/-- Parse an action's text: it must be `.name` (with optional surrounding
spaces); the result is the referenced field name. Anything else is an
unsupported action (a parse error). -/
def actionField (acc : List Char) : Option String :=
  match trimSpaces acc with
  | '.' :: name => some (String.mk name)
  | _ => none

/-- Evaluate one `.name` action against the parameter map, with the default
`missingkey` behaviour: a missing key prints `<no value>`. -/
def evalAction (params : List (String × String)) (acc : List Char) : Option (List Char) :=
  match actionField acc with
  | none => none
  | some name =>
      match params.lookup name with
      | some v => some v.data
      | none => some noValue

/-- Evaluate one `.name` action under `missingkey=error` semantics: a missing
key is a hard failure. Modelled from the spec: "Missing parameters referenced
by the template are a hard failure". -/
def evalActionStrict (params : List (String × String)) (acc : List Char) : Option (List Char) :=
  match actionField acc with
  | none => none
  | some name =>
      match params.lookup name with
      | some v => some v.data
      | none => none

/-- Run the template machine over the input with the default `missingkey`
behaviour. `none` is a parse or execution error (`log.Fatal` in the source). -/
def execTmpl (params : List (String × String)) : TmplMode → List Char → Option (List Char)
  | .text, [] => some []
  | .text, c :: rest =>
      if c = '{' then execTmpl params .brace1 rest
      else (execTmpl params .text rest).map (fun out => c :: out)
  | .brace1, [] => some ['{']
  | .brace1, c :: rest =>
      if c = '{' then execTmpl params (.action []) rest
      else (execTmpl params .text rest).map (fun out => '{' :: c :: out)
  | .action _, [] => none
  | .action acc, c :: rest =>
      if c = '}' then execTmpl params (.close1 acc) rest
      else execTmpl params (.action (acc ++ [c])) rest
  | .close1 _, [] => none
  | .close1 acc, c :: rest =>
      if c = '}' then
        match evalAction params acc with
        | none => none
        | some out => (execTmpl params .text rest).map (fun tl => out ++ tl)
      else execTmpl params (.action (acc ++ ['}', c])) rest

/-- Run the template machine under `missingkey=error` semantics (the spec's
reading, where an omitted parameter is a construction error). -/
def execTmplStrict (params : List (String × String)) : TmplMode → List Char → Option (List Char)
  | .text, [] => some []
  | .text, c :: rest =>
      if c = '{' then execTmplStrict params .brace1 rest
      else (execTmplStrict params .text rest).map (fun out => c :: out)
  | .brace1, [] => some ['{']
  | .brace1, c :: rest =>
      if c = '{' then execTmplStrict params (.action []) rest
      else (execTmplStrict params .text rest).map (fun out => '{' :: c :: out)
  | .action _, [] => none
  | .action acc, c :: rest =>
      if c = '}' then execTmplStrict params (.close1 acc) rest
      else execTmplStrict params (.action (acc ++ [c])) rest
  | .close1 _, [] => none
  | .close1 acc, c :: rest =>
      if c = '}' then
        match evalActionStrict params acc with
        | none => none
        | some out => (execTmplStrict params .text rest).map (fun tl => out ++ tl)
      else execTmplStrict params (.action (acc ++ ['}', c])) rest

/-- Model of `url.URL` as used by `GetEndpointURL`: scheme, host, path. -/
structure URL where
  scheme : String
  host : String
  path : String
deriving DecidableEq

/-- The package variable `BaseURL` (`client.go` lines 33-39). -/
def BaseURL : URL := { scheme := "https", host := "aktiva.merit.ee", path := "/api/v1/" }

/-- Embedding of `GetEndpointURL` (lines 170-188): append the path to the
client's base URL path (the base URL `c.BaseURL()` is passed explicitly, the
model's `Client` keeping only the getter/setter fields), parse the result as a
template, execute it over `pathParams.Params()`, and return the URL with the
expanded path. Parse and execute errors hit `log.Fatal` (modelled `none`);
otherwise the expanded URL is returned. -/
def GetEndpointURL (baseURL : URL) (path : String)
    (pathParams : List (String × String)) : Option URL :=
  let fullPath := baseURL.path ++ path
  (execTmpl pathParams .text fullPath.data).map
    (fun out => { baseURL with path := String.mk out })

/-- The spec's reading of endpoint resolution (`Resolve`), where a missing
parameter is a hard failure instead of printing `<no value>`. Modelled from
the spec: "omitting a required parameter yields a construction error". -/
def GetEndpointURLStrict (baseURL : URL) (path : String)
    (pathParams : List (String × String)) : Option URL :=
  let fullPath := baseURL.path ++ path
  (execTmplStrict pathParams .text fullPath.data).map
    (fun out => { baseURL with path := String.mk out })

/-! ## NewRequest (`client.go` lines 190-228)

The wall clock is a side effect: it is modelled as a stream of serialized
timestamp strings indexed by how many readings have been taken, so that "the
timestamp is generated exactly once" is the statement that the reading index
advances by one. The `DateTime` type is defined outside `client.go`; modelled
from the spec, a timestamp value is represented by the string its `String`
method serializes it to (the spec requires that serialization to be
deterministic). `utils.AddURLValuesToRequest` is likewise outside `client.go`;
modelled from the spec, it appends the three query parameters to the request's
existing query parameters. -/

/-- The wall clock as seen by `GenerateTimestamp`: `readings n` is the
serialized string of the `n`-th `time.Now()` reading, and `idx` counts the
readings taken so far. -/
structure ClockState where
  readings : Nat → String
  idx : Nat

/-- Embedding of `GenerateTimestamp` (lines 152-154): take the next wall-clock
reading. -/
def GenerateTimestamp (s : ClockState) : String × ClockState :=
  (s.readings s.idx, { s with idx := s.idx + 1 })

/-- Model of the outgoing `http.Request` as assembled by `NewRequest`. -/
structure Request where
  method : String
  urlStr : String
  bodyBytes : List Nat
  query : List (String × String)
  headers : List (String × String)

/-- Embedding of `NewRequest` (lines 190-228). The caller's body value is
received already JSON-encoded (`bodyBytes`, empty when the body is `nil`,
matching the empty buffer). One timestamp is generated; its string is added as
the `timestamp` query parameter and passed to `GenerateSignature` together
with the encoded body bytes. -/
def NewRequest (c : Client) (s : ClockState) (method : String) (theURL : URL)
    (bodyBytes : List Nat) : Request × ClockState :=
  let (timestamp, s') := GenerateTimestamp s
  let values := [("ApiId", APIID c),
                 ("timestamp", timestamp),
                 ("signature", GenerateSignature c timestamp bodyBytes)]
  let req : Request :=
    { method := method
      urlStr := theURL.scheme ++ "://" ++ theURL.host ++ theURL.path
      bodyBytes := bodyBytes
      query := values
      headers := [("Content-Type", MediaType c ++ "; charset=" ++ Charset c),
                  ("Accept", MediaType c),
                  ("User-Agent", UserAgent c)] }
  (req, s')

/-! ## JSON bodies (model of Go `encoding/json` as used by `CheckResponse` and
`Do`)

A response body is modelled by what `encoding/json` sees in it: no bytes at
all (`empty`, where a decode yields `io.EOF` and `Unmarshal` fails),
non-empty bytes that are not valid JSON (`malformed`), or a parsed JSON
value. -/

/-- A JSON value. -/
inductive JVal
  | str (s : String)
  | num (n : Int)
  | boolean (b : Bool)
  | null
  | arr (xs : List JVal)
  | obj (fields : List (String × JVal))

/-- A response body as classified by `encoding/json`. -/
inductive JsonBody
  | empty
  | malformed
  | value (v : JVal)

/-! ## CheckResponse and the error types (`client.go` lines 305-398) -/

/-- Model of the `http.Response` fields `CheckResponse` and `Do` consult:
the numeric status code, the status line (`r.Status`, e.g.
"404 Not Found"), the `Content-Type` header value, and the body. -/
structure Response where
  statusCode : Nat
  status : String
  contentType : String
  body : JsonBody

/-- One entry of `ErrorResponse.Errors` (a Go `error` value): either a plain
message error (`errors.New`, or a JSON decode error) or the decoded API
`Error` struct with its `message` and `MessageDetail` fields. -/
inductive ErrEntry
  | message (text : String)
  | apiError (message messageDetail : String)
deriving DecidableEq

/-- Embedding of `Error.Error()` (lines 362-364) and, for plain errors, the
underlying message: what `err.Error()` returns for an entry. -/
def ErrEntry.describe : ErrEntry → String
  | .message t => t
  | .apiError m d => m ++ ": " ++ d

/-- Embedding of the `ErrorResponse` struct (lines 350-355). -/
structure ErrorResponse where
  response : Response
  errors : List ErrEntry

/-- Embedding of `checkContentType` (lines 390-398): compare the text before
the first `;` of the `Content-Type` header against the package constant
`mediaType`; a mismatch is an error (`some` message). -/
def checkContentType (response : Response) : Option String :=
  let contentType := String.mk (response.contentType.data.takeWhile (fun c => c ≠ ';'))
  if contentType ≠ mediaType then
    some ("Expected Content-Type \"" ++ mediaType ++ "\", got \"" ++ contentType ++ "\"")
  else
    none

/-- Model of `json.Unmarshal(data, &Error{})` as invoked through
`ErrorResponse.UnmarshalJSON` (lines 366-376): only a JSON object decodes
into the `Error` struct; the `message` and `MessageDetail` fields must be
strings (or `null`/absent, leaving the zero value); any other shape is an
unmarshalling error. -/
def unmarshalErrorStruct (v : JVal) : Option ErrEntry :=
  match v with
  | .obj fields =>
      let getStr := fun (name : String) =>
        match fields.lookup name with
        | none => some ""
        | some (.str s) => some s
        | some .null => some ""
        | some _ => none
      match getStr "message", getStr "MessageDetail" with
      | some m, some d => some (ErrEntry.apiError m d)
      | _, _ => none
  | _ => none

/-- Embedding of `CheckResponse` (lines 310-348). `none` is the nil error of a
2xx response; otherwise the returned `ErrorResponse` carries the response and
the entries appended along the taken branch: the status line on a
content-type mismatch; nothing for an empty body; the decode error for a body
that does not decode into `Error`; the decoded `Error` otherwise. -/
def CheckResponse (r : Response) : Option ErrorResponse :=
  let errorResponse : ErrorResponse := { response := r, errors := [] }
  if 200 ≤ r.statusCode ∧ r.statusCode ≤ 299 then
    none
  else if (checkContentType r).isSome then
    some { errorResponse with errors := errorResponse.errors ++ [ErrEntry.message r.status] }
  else
    match r.body with
    | .empty => some errorResponse
    | .malformed =>
        some { errorResponse with
               errors := errorResponse.errors ++ [ErrEntry.message "invalid character"] }
    | .value v =>
        match unmarshalErrorStruct v with
        | none =>
            some { errorResponse with
                   errors := errorResponse.errors ++
                     [ErrEntry.message "json: cannot unmarshal value into Go value of type aktiva.Error"] }
        | some e => some { errorResponse with errors := errorResponse.errors ++ [e] }

/-- Embedding of `ErrorResponse.Error()` (lines 378-388): join the entries
with ", " when there is at least one; otherwise fall through to
`r.Errors[0].Error()`, which indexes an empty slice — a panic, modelled as
`none`. -/
def ErrorResponseError (r : ErrorResponse) : Option String :=
  if r.errors.length > 0 then
    some (String.intercalate ", " (r.errors.map ErrEntry.describe))
  else
    (r.errors.get? 0).map ErrEntry.describe

/-! ## Do (`client.go` lines 233-303)

`Do`'s transport step (`c.http.Do`, debug dumps, the completion callback) is
outside the decode contract; the embedding starts from the received response,
exactly as the source does from `httpResp`. The caller's destination
(`responseBody interface{}`) is modelled as a struct value: a set of field
names the destination's type knows (`schema`) together with the current field
values. `json.Decoder.Decode` on it yields `io.EOF` on an empty body, a
decode error on malformed JSON, a non-object value, or — with
`DisallowUnknownFields` — an object carrying a field outside the schema, and
otherwise assigns the object's known fields. -/

/-- A caller-supplied destination for the decoded response body. -/
structure Dest where
  schema : List String
  fields : List (String × JVal)

/-- Assign field `n` to value `v`, replacing an existing binding. -/
def setField : List (String × JVal) → String → JVal → List (String × JVal)
  | [], n, v => [(n, v)]
  | (m, w) :: rest, n, v =>
      if m = n then (n, v) :: rest else (m, w) :: setField rest n v

/-- Assign the known fields of a decoded JSON object into the destination;
fields outside the schema are ignored (lenient mode's behaviour). -/
def applyFields (dest : Dest) (fs : List (String × JVal)) : Dest :=
  { dest with
    fields := fs.foldl
      (fun acc f => if dest.schema.contains f.1 then setField acc f.1 f.2 else acc)
      dest.fields }

/-- Outcome of `json.Decoder.Decode`. -/
inductive DecodeOutcome
  | eof
  | ok (d : Dest)
  | fail (msg : String)

/-- Model of `dec.Decode(responseBody)` with `DisallowUnknownFields` set iff
`strict`. -/
def decodeJson (strict : Bool) (dest : Dest) : JsonBody → DecodeOutcome
  | .empty => .eof
  | .malformed => .fail "invalid character"
  | .value (.obj fs) =>
      if strict && fs.any (fun f => ! dest.schema.contains f.1) then
        .fail "json: unknown field"
      else
        .ok (applyFields dest fs)
  | .value _ => .fail "json: cannot unmarshal value into Go struct"

/-- Embedding of `Do` (lines 233-303) from the point the response is in hand:
run `CheckResponse`; on its error return it with the response; with no
destination return success; otherwise decode, treating `io.EOF` as success
with the destination untouched, wrapping any other decode error in an
`ErrorResponse` that references the response. -/
def Do (c : Client) (httpResp : Response) (responseBody : Option Dest) :
    Response × Except ErrorResponse (Option Dest) :=
  match CheckResponse httpResp with
  | some e => (httpResp, Except.error e)
  | none =>
      match responseBody with
      | none => (httpResp, Except.ok none)
      | some dest =>
          match decodeJson c.disallowUnknownFields dest httpResp.body with
          | .eof => (httpResp, Except.ok (some dest))
          | .ok d => (httpResp, Except.ok (some d))
          | .fail msg =>
              (httpResp,
               Except.error { response := httpResp, errors := [ErrEntry.message msg] })

/-! ## Theorems -/

/-- C1: for every apiKey (secret), apiID (identifier), timestamp string and
body byte sequence, `GenerateSignature` returns the standard-alphabet, padded
base64 encoding of HMAC-SHA256 keyed by the secret over the concatenation
identifier-bytes || timestamp-string || body-bytes (the spec's `Sign`
contract), and it is deterministic: two calls with identical inputs return
the identical string. -/
theorem generateSignature_hmac_spec (c : Client) (timestampStr : String) (body : List Nat) :
    GenerateSignature c timestampStr body =
      Sign (strBytes (APIKey c)) (strBytes (APIID c)) (strBytes timestampStr) body ∧
    GenerateSignature c timestampStr body = GenerateSignature c timestampStr body := by
  refine ⟨?_, rfl⟩
  simp [GenerateSignature, Sign, List.append_assoc]

/-- C3: for every request built by `NewRequest`, exactly one wall-clock
reading is taken (the reading index advances by one), the transmitted
`timestamp` query parameter is that reading's serialization, and the
`signature` query parameter is computed from that identical timestamp
string. -/
theorem newRequest_single_timestamp (c : Client) (s : ClockState) (method : String)
    (theURL : URL) (bodyBytes : List Nat) :
    (NewRequest c s method theURL bodyBytes).2.idx = s.idx + 1 ∧
    (NewRequest c s method theURL bodyBytes).1.query.lookup "timestamp" =
      some (s.readings s.idx) ∧
    (NewRequest c s method theURL bodyBytes).1.query.lookup "signature" =
      some (GenerateSignature c (s.readings s.idx) bodyBytes) :=
  ⟨rfl, rfl, rfl⟩

/-- C4: for every non-2xx response whose Content-Type (ignoring parameters
after the first `;`) differs from "application/json", `CheckResponse` returns
an ErrorCollection with exactly one synthetic entry built from the HTTP
status line — and the result is the same whatever the body holds, so no JSON
decode of the body influences it. -/
theorem checkResponse_contentType_mismatch (r : Response)
    (hs : ¬ (200 ≤ r.statusCode ∧ r.statusCode ≤ 299))
    (hc : String.mk (r.contentType.data.takeWhile (fun cc => cc ≠ ';')) ≠ mediaType) :
    CheckResponse r = some { response := r, errors := [ErrEntry.message r.status] } ∧
    ∀ b : JsonBody, CheckResponse { r with body := b } =
      some { response := { r with body := b }, errors := [ErrEntry.message r.status] } := by
  have hmsg : checkContentType r = some ("Expected Content-Type \"" ++ mediaType ++
      "\", got \"" ++ String.mk (r.contentType.data.takeWhile (fun cc => cc ≠ ';')) ++ "\"") := by
    simp only [checkContentType]
    rw [if_pos hc]
  have main : ∀ b : JsonBody, CheckResponse { r with body := b } =
      some { response := { r with body := b }, errors := [ErrEntry.message r.status] } := by
    intro b
    have hmsg' : checkContentType { r with body := b } =
        some ("Expected Content-Type \"" ++ mediaType ++ "\", got \"" ++
          String.mk (r.contentType.data.takeWhile (fun cc => cc ≠ ';')) ++ "\"") := hmsg
    unfold CheckResponse
    dsimp only
    rw [if_neg hs, hmsg']
    rfl
  exact ⟨main r.body, main⟩

/-- C4 witness: status 500 with `Content-Type: text/html` yields the single
synthetic status-line entry. -/
theorem checkResponse_contentType_mismatch_witness :
    CheckResponse ⟨500, "500 Internal Server Error", "text/html", JsonBody.malformed⟩ =
      some ⟨⟨500, "500 Internal Server Error", "text/html", JsonBody.malformed⟩,
            [ErrEntry.message "500 Internal Server Error"]⟩ :=
  (checkResponse_contentType_mismatch
    ⟨500, "500 Internal Server Error", "text/html", JsonBody.malformed⟩
    (by decide) (by decide)).1

/-- C5 counterexample: a 404 response with matching content type and an empty
body produces an ErrorCollection with zero entries, so a non-2xx response
does not always contain at least one entry. -/
theorem checkResponse_empty_body_no_entries :
    CheckResponse ⟨404, "404 Not Found", "application/json", JsonBody.empty⟩ =
      some ⟨⟨404, "404 Not Found", "application/json", JsonBody.empty⟩, []⟩ := by
  rfl

/-- C5 amended: every non-2xx response produces an ErrorCollection error
value (never nil) carrying the response, but its entry sequence is empty
exactly when the content type matches and the body is empty; in every other
case at least one entry is present. -/
theorem checkResponse_non2xx_error_value (r : Response)
    (hs : ¬ (200 ≤ r.statusCode ∧ r.statusCode ≤ 299)) :
    ∃ e : ErrorResponse, CheckResponse r = some e ∧ e.response = r ∧
      (e.errors = [] ↔ checkContentType r = none ∧ r.body = JsonBody.empty) := by
  cases hct : checkContentType r with
  | some msg =>
    refine ⟨{ response := r, errors := [ErrEntry.message r.status] }, ?_, rfl, by simp [hct]⟩
    simp [CheckResponse, hs, hct]
  | none =>
    cases hb : r.body with
    | empty =>
      refine ⟨{ response := r, errors := [] }, ?_, rfl, by simp [hct, hb]⟩
      simp [CheckResponse, hs, hct, hb]
    | malformed =>
      refine ⟨{ response := r, errors := [ErrEntry.message "invalid character"] }, ?_, rfl,
        by simp [hct, hb]⟩
      simp [CheckResponse, hs, hct, hb]
    | value v =>
      cases hu : unmarshalErrorStruct v with
      | none =>
        refine ⟨{ response := r,
                  errors := [ErrEntry.message
                    "json: cannot unmarshal value into Go value of type aktiva.Error"] },
          ?_, rfl, by simp [hct, hb]⟩
        simp [CheckResponse, hs, hct, hb, hu]
      | some en =>
        refine ⟨{ response := r, errors := [en] }, ?_, rfl, by simp [hct, hb]⟩
        simp [CheckResponse, hs, hct, hb, hu]

/-- C5 amended witness: the empty-body 404 instance, with zero entries. -/
theorem checkResponse_non2xx_error_value_witness :
    ∃ e : ErrorResponse,
      CheckResponse ⟨404, "404 Not Found", "application/json", JsonBody.empty⟩ = some e ∧
      e.response = ⟨404, "404 Not Found", "application/json", JsonBody.empty⟩ ∧
      (e.errors = [] ↔
        checkContentType ⟨404, "404 Not Found", "application/json", JsonBody.empty⟩ = none ∧
        Response.body ⟨404, "404 Not Found", "application/json", JsonBody.empty⟩ =
          JsonBody.empty) :=
  checkResponse_non2xx_error_value
    ⟨404, "404 Not Found", "application/json", JsonBody.empty⟩ (by decide)

/-- C6: for every non-2xx status, a matching content type and the body
`\x7b"message": m, "MessageDetail": d\x7d`, `CheckResponse` returns an
ErrorCollection with exactly one entry, and that entry describes itself as
`m ++ ": " ++ d`. -/
theorem checkResponse_decodes_error_object (sc : Nat) (st m d : String)
    (hs : ¬ (200 ≤ sc ∧ sc ≤ 299)) :
    CheckResponse ⟨sc, st, "application/json", JsonBody.value (JVal.obj
        [("message", JVal.str m), ("MessageDetail", JVal.str d)])⟩ =
      some ⟨⟨sc, st, "application/json", JsonBody.value (JVal.obj
              [("message", JVal.str m), ("MessageDetail", JVal.str d)])⟩,
            [ErrEntry.apiError m d]⟩ ∧
    ErrEntry.describe (ErrEntry.apiError m d) = m ++ ": " ++ d := by
  constructor
  · unfold CheckResponse
    dsimp only
    rw [if_neg hs]
    rfl
  · rfl

/-- C6 witness: status 404 with body
`\x7b"message":"Not found","MessageDetail":"no such id"\x7d` yields one entry
whose message is "Not found: no such id". -/
theorem checkResponse_decodes_error_object_witness :
    CheckResponse ⟨404, "404 Not Found", "application/json", JsonBody.value (JVal.obj
        [("message", JVal.str "Not found"), ("MessageDetail", JVal.str "no such id")])⟩ =
      some ⟨⟨404, "404 Not Found", "application/json", JsonBody.value (JVal.obj
              [("message", JVal.str "Not found"), ("MessageDetail", JVal.str "no such id")])⟩,
            [ErrEntry.apiError "Not found" "no such id"]⟩ ∧
    ErrEntry.describe (ErrEntry.apiError "Not found" "no such id") = "Not found: no such id" :=
  ⟨(checkResponse_decodes_error_object 404 "404 Not Found" "Not found" "no such id"
      (by decide)).1,
   by decide⟩

/-- C7: for every 2xx response with an empty body and a non-null destination,
`Do` returns success and the destination is unchanged: end of input during
the JSON decode is not an error. -/
theorem do_empty_body_preserves_destination (c : Client) (r : Response) (dest : Dest)
    (hs : 200 ≤ r.statusCode ∧ r.statusCode ≤ 299) (hb : r.body = JsonBody.empty) :
    Do c r (some dest) = (r, Except.ok (some dest)) := by
  unfold Do CheckResponse
  rw [if_pos hs, hb]
  rfl

/-- C7 witness: status 204 with an empty body leaves a concrete destination
untouched. -/
theorem do_empty_body_preserves_destination_witness :
    Do ⟨false, "id", "key", "", "", "", false⟩
       ⟨204, "204 No Content", "application/json", JsonBody.empty⟩
       (some ⟨["Name"], [("Name", JVal.str "old")]⟩) =
      (⟨204, "204 No Content", "application/json", JsonBody.empty⟩,
       Except.ok (some ⟨["Name"], [("Name", JVal.str "old")]⟩)) :=
  do_empty_body_preserves_destination _ _ _ (by decide) rfl

/-- C9: an `ErrorResponse` with an empty `Errors` sequence — exactly what
`CheckResponse` produces for an empty non-2xx body — panics in its `Error()`
method by indexing element 0 of the empty slice (modelled as `none`), rather
than returning a message string. -/
theorem errorResponse_error_empty_panics (r : Response)
    (hs : ¬ (200 ≤ r.statusCode ∧ r.statusCode ≤ 299))
    (hc : checkContentType r = none) (hb : r.body = JsonBody.empty) :
    CheckResponse r = some { response := r, errors := [] } ∧
    ErrorResponseError { response := r, errors := [] } = none := by
  constructor
  · unfold CheckResponse
    rw [if_neg hs, hc, hb]
    rfl
  · rfl

/-- C9 witness: the empty-body 404 ErrorResponse has no entries and its
describe method panics. -/
theorem errorResponse_error_empty_panics_witness :
    CheckResponse ⟨404, "404 Not Found", "application/json", JsonBody.empty⟩ =
      some ⟨⟨404, "404 Not Found", "application/json", JsonBody.empty⟩, []⟩ ∧
    ErrorResponseError ⟨⟨404, "404 Not Found", "application/json", JsonBody.empty⟩, []⟩ =
      none :=
  errorResponse_error_empty_panics
    ⟨404, "404 Not Found", "application/json", JsonBody.empty⟩ (by decide) rfl rfl

/-- C10: the getters `MediaType()`, `Charset()` and `UserAgent()` return the
package constants "application/json", "utf-8" and "go-merit-aktiva/0.0.1"
for every client and regardless of any prior setter call, so the
setter-then-getter round-trip fails for these three configuration fields. -/
theorem config_getters_ignore_setters (c : Client) (s : String) :
    MediaType (SetMediaType c s) = "application/json" ∧
    Charset (SetCharset c s) = "utf-8" ∧
    UserAgent (SetUserAgent c s) = "go-merit-aktiva/0.0.1" ∧
    MediaType (SetMediaType c "text/xml") ≠ "text/xml" ∧
    Charset (SetCharset c "iso-8859-1") ≠ "iso-8859-1" ∧
    UserAgent (SetUserAgent c "custom-agent/1.0") ≠ "custom-agent/1.0" := by
  refine ⟨rfl, rfl, rfl, ?_, ?_, ?_⟩
  · show mediaType ≠ "text/xml"
    decide
  · show charset ≠ "iso-8859-1"
    decide
  · show userAgent ≠ "custom-agent/1.0"
    decide

/-- Folding field assignments while skipping names outside the schema is the
same as folding the assignments of the filtered field list. -/
theorem foldl_setField_filter (schema : List String) (fs : List (String × JVal))
    (acc : List (String × JVal)) :
    fs.foldl (fun a f => if schema.contains f.1 then setField a f.1 f.2 else a) acc =
      (fs.filter (fun f => schema.contains f.1)).foldl (fun a f => setField a f.1 f.2) acc := by
  induction fs generalizing acc with
  | nil => rfl
  | cons f rest ih =>
    by_cases hf : schema.contains f.1
    · simp only [List.foldl_cons, List.filter_cons, hf, if_pos, ite_true]
      exact ih (setField acc f.1 f.2)
    · simp only [List.foldl_cons, List.filter_cons, hf, if_neg, ite_false, Bool.false_eq_true]
      exact ih acc

/-- With a nil `CheckResponse` error and a destination supplied, `Do` is the
decode step's outcome. -/
theorem Do_of_decode (c : Client) (r : Response) (dest : Dest)
    (hcheck : CheckResponse r = none) :
    Do c r (some dest) =
      match decodeJson c.disallowUnknownFields dest r.body with
      | DecodeOutcome.eof => (r, Except.ok (some dest))
      | DecodeOutcome.ok d => (r, Except.ok (some d))
      | DecodeOutcome.fail msg =>
          (r, Except.error { response := r, errors := [ErrEntry.message msg] }) := by
  unfold Do
  rw [hcheck]

/-- Strict decode of an object with a field outside the schema fails with the
unknown-field error. -/
theorem decodeJson_strict_unknown (dest : Dest) (fs : List (String × JVal))
    (hu : fs.any (fun f => ! dest.schema.contains f.1) = true) :
    decodeJson true dest (JsonBody.value (JVal.obj fs)) =
      DecodeOutcome.fail "json: unknown field" := by
  have hcond : (true && fs.any fun f => ! dest.schema.contains f.1) = true := by
    rw [Bool.true_and]
    exact hu
  show (if (true && fs.any fun f => ! dest.schema.contains f.1) = true then
      DecodeOutcome.fail "json: unknown field"
    else DecodeOutcome.ok (applyFields dest fs)) = DecodeOutcome.fail "json: unknown field"
  rw [if_pos hcond]

/-- Lenient decode of an object succeeds, assigning the known fields. -/
theorem decodeJson_lenient_obj (dest : Dest) (fs : List (String × JVal)) :
    decodeJson false dest (JsonBody.value (JVal.obj fs)) =
      DecodeOutcome.ok (applyFields dest fs) := by
  have hcond : ¬ ((false && fs.any fun f => ! dest.schema.contains f.1) = true) := by simp
  show (if (false && fs.any fun f => ! dest.schema.contains f.1) = true then
      DecodeOutcome.fail "json: unknown field"
    else DecodeOutcome.ok (applyFields dest fs)) = DecodeOutcome.ok (applyFields dest fs)
  rw [if_neg hcond]

/-- C8: for every 2xx response whose JSON body is an object carrying a field
outside the destination's schema: with strict mode configured, `Do` returns
the decode error wrapped as an ErrorCollection referencing the original
response; without strict mode, `Do` returns success and the unknown fields
are ignored — the destination is updated exactly by the schema-filtered
fields. -/
theorem do_unknown_field_strict_lenient (c : Client) (r : Response) (dest : Dest)
    (fs : List (String × JVal))
    (hs : 200 ≤ r.statusCode ∧ r.statusCode ≤ 299)
    (hb : r.body = JsonBody.value (JVal.obj fs))
    (hu : fs.any (fun f => ! dest.schema.contains f.1) = true) :
    Do (SetDisallowUnknownFields c true) r (some dest) =
      (r, Except.error { response := r, errors := [ErrEntry.message "json: unknown field"] }) ∧
    Do (SetDisallowUnknownFields c false) r (some dest) =
      (r, Except.ok (some { dest with
        fields := (fs.filter (fun f => dest.schema.contains f.1)).foldl
          (fun a f => setField a f.1 f.2) dest.fields })) := by
  have hcheck : CheckResponse r = none := by
    unfold CheckResponse
    rw [if_pos hs]
  have hstrict : (SetDisallowUnknownFields c true).disallowUnknownFields = true := rfl
  have hlenient : (SetDisallowUnknownFields c false).disallowUnknownFields = false := rfl
  constructor
  · rw [Do_of_decode _ _ _ hcheck, hb, hstrict, decodeJson_strict_unknown dest fs hu]
  · rw [Do_of_decode _ _ _ hcheck, hb, hlenient, decodeJson_lenient_obj dest fs]
    unfold applyFields
    rw [foldl_setField_filter]

/-- C8 witness: a 200 response whose body has the known field `Name` and the
unknown field `Extra`; strict mode fails with the wrapped decode error,
lenient mode assigns `Name` and drops `Extra`. -/
theorem do_unknown_field_strict_lenient_witness :
    Do (SetDisallowUnknownFields ⟨false, "id", "key", "", "", "", false⟩ true)
       ⟨200, "200 OK", "application/json",
        JsonBody.value (JVal.obj [("Name", JVal.str "a"), ("Extra", JVal.str "b")])⟩
       (some ⟨["Name"], [("Name", JVal.null)]⟩) =
      (⟨200, "200 OK", "application/json",
        JsonBody.value (JVal.obj [("Name", JVal.str "a"), ("Extra", JVal.str "b")])⟩,
       Except.error ⟨⟨200, "200 OK", "application/json",
          JsonBody.value (JVal.obj [("Name", JVal.str "a"), ("Extra", JVal.str "b")])⟩,
          [ErrEntry.message "json: unknown field"]⟩) ∧
    Do (SetDisallowUnknownFields ⟨false, "id", "key", "", "", "", false⟩ false)
       ⟨200, "200 OK", "application/json",
        JsonBody.value (JVal.obj [("Name", JVal.str "a"), ("Extra", JVal.str "b")])⟩
       (some ⟨["Name"], [("Name", JVal.null)]⟩) =
      (⟨200, "200 OK", "application/json",
        JsonBody.value (JVal.obj [("Name", JVal.str "a"), ("Extra", JVal.str "b")])⟩,
       Except.ok (some ⟨["Name"], [("Name", JVal.str "a")]⟩)) := by
  have h := do_unknown_field_strict_lenient ⟨false, "id", "key", "", "", "", false⟩
    ⟨200, "200 OK", "application/json",
     JsonBody.value (JVal.obj [("Name", JVal.str "a"), ("Extra", JVal.str "b")])⟩
    ⟨["Name"], [("Name", JVal.null)]⟩
    [("Name", JVal.str "a"), ("Extra", JVal.str "b")]
    (by decide) rfl (by decide)
  exact ⟨h.1, h.2.trans rfl⟩

/-- Both action evaluators agree when the strict one succeeds. -/
theorem evalActionStrict_imp (params : List (String × String)) (acc out : List Char)
    (h : evalActionStrict params acc = some out) : evalAction params acc = some out := by
  unfold evalAction
  unfold evalActionStrict at h
  cases haf : actionField acc with
  | none => rw [haf] at h; simp at h
  | some name =>
    rw [haf] at h
    have h' : (match List.lookup name params with
        | some v => some v.data
        | none => (none : Option (List Char))) = some out := h
    show (match List.lookup name params with
        | some v => some v.data
        | none => some noValue) = some out
    cases hlk : List.lookup name params with
    | none => rw [hlk] at h'; simp at h'
    | some v => rw [hlk] at h'; exact h'

/-- If the default evaluator succeeds where the strict one fails, the action
printed the missing-key fallback text. -/
theorem evalAction_strict_none (params : List (String × String)) (acc out : List Char)
    (h : evalAction params acc = some out) (hn : evalActionStrict params acc = none) :
    out = noValue := by
  unfold evalAction at h
  unfold evalActionStrict at hn
  cases haf : actionField acc with
  | none => rw [haf] at h; simp at h
  | some name =>
    rw [haf] at h
    rw [haf] at hn
    have h' : (match List.lookup name params with
        | some v => some v.data
        | none => some noValue) = some out := h
    have hn' : (match List.lookup name params with
        | some v => some v.data
        | none => (none : Option (List Char))) = none := hn
    cases hlk : List.lookup name params with
    | some v => rw [hlk] at hn'; simp at hn'
    | none =>
      rw [hlk] at h'
      exact (Option.some.inj h').symm

/-- The default-mode template machine agrees with the strict machine whenever
the strict machine succeeds (every referenced parameter present). -/
theorem execTmplStrict_imp (params : List (String × String)) :
    ∀ (cs : List Char) (mode : TmplMode) (out : List Char),
      execTmplStrict params mode cs = some out → execTmpl params mode cs = some out := by
  intro cs
  induction cs with
  | nil =>
    intro mode out h
    cases mode <;> simp_all [execTmpl, execTmplStrict]
  | cons c rest ih =>
    intro mode out h
    cases mode with
    | text =>
      simp only [execTmplStrict] at h
      simp only [execTmpl]
      by_cases hc : c = '{'
      · rw [if_pos hc] at h
        rw [if_pos hc]
        exact ih _ _ h
      · rw [if_neg hc] at h
        rw [if_neg hc]
        obtain ⟨y, hy, hout⟩ := Option.map_eq_some'.mp h
        rw [ih _ _ hy]
        simp [hout]
    | brace1 =>
      simp only [execTmplStrict] at h
      simp only [execTmpl]
      by_cases hc : c = '{'
      · rw [if_pos hc] at h
        rw [if_pos hc]
        exact ih _ _ h
      · rw [if_neg hc] at h
        rw [if_neg hc]
        obtain ⟨y, hy, hout⟩ := Option.map_eq_some'.mp h
        rw [ih _ _ hy]
        simp [hout]
    | action acc =>
      simp only [execTmplStrict] at h
      simp only [execTmpl]
      by_cases hc : c = '}'
      · rw [if_pos hc] at h
        rw [if_pos hc]
        exact ih _ _ h
      · rw [if_neg hc] at h
        rw [if_neg hc]
        exact ih _ _ h
    | close1 acc =>
      simp only [execTmplStrict] at h
      simp only [execTmpl]
      by_cases hc : c = '}'
      · rw [if_pos hc] at h
        rw [if_pos hc]
        cases he : evalActionStrict params acc with
        | none => rw [he] at h; simp at h
        | some o =>
          rw [he] at h
          rw [evalActionStrict_imp params acc o he]
          obtain ⟨y, hy, hout⟩ := Option.map_eq_some'.mp h
          rw [ih _ _ hy]
          simp [hout]
      · rw [if_neg hc] at h
        rw [if_neg hc]
        exact ih _ _ h

/-- When the default-mode machine succeeds where the strict machine fails,
the missing-key fallback text `<no value>` appears in the output. -/
theorem execTmpl_strict_none_infix (params : List (String × String)) :
    ∀ (cs : List Char) (mode : TmplMode) (out : List Char),
      execTmpl params mode cs = some out → execTmplStrict params mode cs = none →
      noValue <:+: out := by
  intro cs
  induction cs with
  | nil =>
    intro mode out h hn
    cases mode <;> simp_all [execTmpl, execTmplStrict]
  | cons c rest ih =>
    intro mode out h hn
    cases mode with
    | text =>
      simp only [execTmpl] at h
      simp only [execTmplStrict] at hn
      by_cases hc : c = '{'
      · rw [if_pos hc] at h hn
        exact ih _ _ h hn
      · rw [if_neg hc] at h hn
        obtain ⟨y, hy, hout⟩ := Option.map_eq_some'.mp h
        have hns := Option.map_eq_none'.mp hn
        rw [← hout]
        exact List.infix_cons (ih _ _ hy hns)
    | brace1 =>
      simp only [execTmpl] at h
      simp only [execTmplStrict] at hn
      by_cases hc : c = '{'
      · rw [if_pos hc] at h hn
        exact ih _ _ h hn
      · rw [if_neg hc] at h hn
        obtain ⟨y, hy, hout⟩ := Option.map_eq_some'.mp h
        have hns := Option.map_eq_none'.mp hn
        rw [← hout]
        exact List.infix_cons (List.infix_cons (ih _ _ hy hns))
    | action acc =>
      simp only [execTmpl] at h
      simp only [execTmplStrict] at hn
      by_cases hc : c = '}'
      · rw [if_pos hc] at h hn
        exact ih _ _ h hn
      · rw [if_neg hc] at h hn
        exact ih _ _ h hn
    | close1 acc =>
      simp only [execTmpl] at h
      simp only [execTmplStrict] at hn
      by_cases hc : c = '}'
      · rw [if_pos hc] at h hn
        cases he : evalAction params acc with
        | none => rw [he] at h; simp at h
        | some o =>
          rw [he] at h
          obtain ⟨y, hy, hout⟩ := Option.map_eq_some'.mp h
          cases hes : evalActionStrict params acc with
          | some o2 =>
            rw [hes] at hn
            have hns := Option.map_eq_none'.mp hn
            obtain ⟨s, t, hst⟩ := ih _ _ hy hns
            rw [← hout]
            exact ⟨o ++ s, t, by rw [← hst]; simp [List.append_assoc]⟩
          | none =>
            have ho := evalAction_strict_none params acc o he hes
            rw [← hout, ho]
            exact ⟨[], y, by simp⟩
      · rw [if_neg hc] at h hn
        exact ih _ _ h hn

/-- C2 counterexample: with the template `getcustomer/\x7b\x7b.Id\x7d\x7d` and
an empty parameter map — the `Id` parameter omitted — `GetEndpointURL` does
not fail: it returns a URL whose path contains the silently-wrong placeholder
text `<no value>`, while the spec's strict resolution of the same input is a
hard failure. -/
theorem getEndpointURL_missing_param_counterexample :
    GetEndpointURL BaseURL "getcustomer/\x7b\x7b.Id\x7d\x7d" [] =
      some ⟨"https", "aktiva.merit.ee", "/api/v1/getcustomer/<no value>"⟩ ∧
    GetEndpointURLStrict BaseURL "getcustomer/\x7b\x7b.Id\x7d\x7d" [] = none := by
  constructor
  · rfl
  · rfl

/-- C2 amended: a parameter omitted from the map is not a construction error:
`GetEndpointURL` agrees with the spec's strict resolution whenever the latter
succeeds (all referenced parameters supplied: fully expanded, no unexpanded
placeholder), and whenever it succeeds where strict resolution fails, the
returned URL's path contains the literal fallback text `<no value>`. -/
theorem getEndpointURL_missing_param_noValue (baseURL : URL) (path : String)
    (params : List (String × String)) :
    (∀ u : URL, GetEndpointURLStrict baseURL path params = some u →
      GetEndpointURL baseURL path params = some u) ∧
    (∀ u : URL, GetEndpointURL baseURL path params = some u →
      GetEndpointURLStrict baseURL path params = none →
      noValue <:+: u.path.data) := by
  constructor
  · intro u hu
    simp only [GetEndpointURLStrict] at hu
    simp only [GetEndpointURL]
    obtain ⟨y, hy, hout⟩ := Option.map_eq_some'.mp hu
    rw [execTmplStrict_imp params _ _ _ hy]
    simp [hout]
  · intro u hu hn
    simp only [GetEndpointURL] at hu
    simp only [GetEndpointURLStrict] at hn
    obtain ⟨y, hy, hout⟩ := Option.map_eq_some'.mp hu
    have hns := Option.map_eq_none'.mp hn
    have hinf := execTmpl_strict_none_infix params _ _ _ hy hns
    rw [← hout]
    simpa using hinf

/-- C2 witness: the amended theorem applied at the counterexample input — the
resolved path contains the fallback text. -/
theorem getEndpointURL_missing_param_noValue_witness :
    noValue <:+:
      (URL.path ⟨"https", "aktiva.merit.ee", "/api/v1/getcustomer/<no value>"⟩).data :=
  (getEndpointURL_missing_param_noValue BaseURL "getcustomer/\x7b\x7b.Id\x7d\x7d" []).2
    ⟨"https", "aktiva.merit.ee", "/api/v1/getcustomer/<no value>"⟩ rfl rfl

end MeritAktiva
